import Mathlib

/-!
# Verification of the rash storage/normalization engine and query compiler

Shallow embedding of `rash/database.py`, `rash/export.py` and the parts of
their collaborators that the verified properties need.  Python strings are
modelled as lists of characters, SQLite tables as Lean lists, machine-level
ids as `Nat`, and timestamps as epoch seconds (`Int`):
`datetime.datetime.utcfromtimestamp` is strictly monotone and injective on
the epoch values occurring here, so equality and order of stored timestamps
coincide with equality and order of the epoch values.
-/

deriving instance DecidableEq for Except

namespace Rash

/-- Python `str` values are modelled as lists of characters. -/
abbrev PStr := List Char

/-- Helper turning a Lean string literal into a modelled Python string. -/
def pystr (s : String) : PStr := s.data

/-! ## Path normalization (`os.path` model and `normalize_directory`)

`normalize_directory` (database.py 24-29) calls `os.path.abspath`, which on
POSIX is `posixpath.normpath` applied to the input (joined onto the process
working directory when the input is relative).  The functions below model the
CPython `posixpath` implementations; `os.path.sep` is `'/'` and
`os.getcwd()` is passed in explicitly as `pcwd`. -/

/-- Model of `posixpath.isabs`: the path starts with the separator. -/
def isabs (p : PStr) : Bool := p.take 1 = ['/']

/-- Model of Python `str.split('/')`: the list of separator-free chunks,
including empty chunks between, before and after separators. -/
def splitSep : PStr → List PStr
  | [] => [[]]
  | c :: rest =>
    if c = '/' then [] :: splitSep rest
    else
      match splitSep rest with
      | [] => [[c]]
      | g :: gs => (c :: g) :: gs

/-- `posixpath.normpath` leading-slash count: one leading separator is kept,
except that exactly two leading separators are preserved as two (POSIX allows
an implementation-defined meaning for paths beginning with `//`). -/
def initialSlashes (p : PStr) : Nat :=
  if p.take 1 = ['/'] then
    if p.take 2 = ['/', '/'] ∧ ¬ p.take 3 = ['/', '/', '/'] then 2 else 1
  else 0

/-- One step of the `posixpath.normpath` component loop: drop empty and `.`
components, resolve `..` against the accumulated components. -/
def normStep (sl : Nat) (acc : List PStr) (comp : PStr) : List PStr :=
  if comp = [] ∨ comp = ['.'] then acc
  else if comp ≠ ['.', '.'] ∨ (sl = 0 ∧ acc = []) ∨ acc.getLast? = some ['.', '.'] then
    acc ++ [comp]
  else if acc ≠ [] then acc.dropLast
  else acc

/-- Model of Python `str.join` over a list of chunks. -/
def strJoin (sep : PStr) : List PStr → PStr
  | [] => []
  | [x] => x
  | x :: y :: rest => x ++ sep ++ strJoin sep (y :: rest)

/-- Model of CPython `posixpath.normpath`. -/
def normpath (p : PStr) : PStr :=
  if p = [] then ['.']
  else
    let sl := initialSlashes p
    let comps := (splitSep p).foldl (normStep sl) []
    let r := List.replicate sl '/' ++ strJoin ['/'] comps
    if r = [] then ['.'] else r

/-- Model of `posixpath.join` restricted to two arguments. -/
def pyJoin (a b : PStr) : PStr :=
  if isabs b then b
  else if a = [] ∨ a.getLast? = some '/' then a ++ b
  else a ++ '/' :: b

/-- Model of `posixpath.abspath`: non-absolute paths are joined onto the
process working directory `pcwd`, then the result is normalized. -/
def abspath (pcwd p : PStr) : PStr :=
  if isabs p then normpath p else normpath (pyJoin pcwd p)

/-- `normalize_directory` from database.py (24-29): absolute form of the path
with a single trailing separator (`os.path.sep`, one character) stripped. -/
def normalize_directory (pcwd p : PStr) : PStr :=
  let a := abspath pcwd p
  if a.getLast? = some '/' then a.dropLast else a

/-! ## Glob matching

The emitted WHERE clauses use SQLite's `glob(pattern, text)`.  The spec's
glossary defines the glob patterns in use as shell-style `*` and `?`
wildcards; other characters match themselves. -/

/-- Matcher loop.  The fuel argument only bounds the recursion depth (every
call strictly decreases `pattern.length + text.length`, so any fuel of at
least that sum gives the fuel-free semantics); it keeps the recursion
structural. -/
def globGo : Nat → PStr → PStr → Bool
  | _, [], [] => true
  | _, [], _ :: _ => false
  | 0, _ :: _, _ => false
  | fuel + 1, '*' :: ps, [] => globGo fuel ps []
  | fuel + 1, '*' :: ps, c :: cs => globGo fuel ps (c :: cs) || globGo fuel ('*' :: ps) cs
  | _ + 1, '?' :: _, [] => false
  | fuel + 1, '?' :: ps, _ :: cs => globGo fuel ps cs
  | _ + 1, _ :: _, [] => false
  | fuel + 1, p :: ps, c :: cs => (p = c) && globGo fuel ps cs

/-- Model of `glob(pattern, text)` for the wildcards `*` and `?`. -/
def globMatch (p s : PStr) : Bool := globGo (p.length + s.length) p s

/-! ## Collaborator shims from `rash.utils.iterutils` -/

/-- Modelled from the spec: `nonempty` from rash/utils/iterutils.py (not
under src/); reports whether the given sequence has at least one element
(import_dict skips the import exactly when the duplicate lookup is
nonempty). -/
def nonempty (l : List α) : Bool := !l.isEmpty

/-- Modelled from the spec: `repeat` from rash/utils/iterutils.py (not under
src/); `num` copies of `item` — the search compiler relies on it to emit one
sub-condition per accepted pattern (§4.4). -/
def repeatItem (item : α) (num : Nat) : List α := List.replicate num item

/-! ## Data model

The schema script `rash/schema.sql` is not under src/; the table layout below
is modelled from the spec (§3) together with the concrete INSERT/SELECT
statements in database.py.  Every table is a list of rows in insertion order
(SQLite scans a plain table in rowid order); ids are rowids. -/

/-- Modelled from the spec: `CommandRecord` from rash/model.py (not under
src/); the field set is §6's input record shape.  `environ` entries keep
possibly-null names and values because `_insert_environ` filters them. -/
structure CommandRecord where
  command : Option PStr := none
  cwd : Option PStr := none
  terminal : Option PStr := none
  start : Option Int := none
  stop : Option Int := none
  exit_code : Option Int := none
  environ : List (Option PStr × Option PStr) := []
  pipestatus : List Int := []
deriving DecidableEq, Repr

/-- One row of the `command_history` fact table (columns as in the INSERT at
database.py 105-113, plus the rowid). -/
structure CHRow where
  id : Nat
  command_id : Option Nat
  directory_id : Option Nat
  terminal_id : Option Nat
  start_time : Option Int
  stop_time : Option Int
  exit_code : Option Int
deriving DecidableEq, Repr

/-- The relational store: dimension tables, fact table, join tables and the
`rash_info` metadata row. -/
structure Store where
  command_list : List (Nat × PStr) := []
  directory_list : List (Nat × PStr) := []
  terminal_list : List (Nat × PStr) := []
  environment_variable : List (Nat × (PStr × PStr)) := []
  command_history : List CHRow := []
  command_environment_map : List (Nat × Nat) := []
  pipe_status_map : List (Nat × Nat × Int) := []
  rash_info : List (PStr × PStr) := []
deriving DecidableEq, Repr

/-- `schema_version` from database.py 10. -/
def schema_version : PStr := pystr "0.1.dev1"

/-- Modelled from the spec: `__version__` from rash/__init__.py (not under
src/).  Only its presence in the metadata row matters; no claim depends on
the exact string. -/
def rash_version : PStr := pystr "0.1.0"

/-- `DataBase._init_db` (database.py 47-57): run the schema script on a fresh
store and record the version metadata row. -/
def initStore : Store := { rash_info := [(rash_version, schema_version)] }

/-! ## Identity resolver (get-or-create) -/

/-- Fresh rowid assigned by SQLite on insert: one more than the largest
rowid in the table. -/
def nextRowId (ids : List Nat) : Nat := ids.foldr max 0 + 1

/-- `DataBase._get_maybe_new_id` (database.py 164-179): scan the table for a
row whose identity-key columns equal the given values and return its id;
otherwise insert a new row with those values and return the fresh rowid.
The key type `κ` stands for the column/value set (a single string for
command/directory/terminal, a name/value pair for environment variables). -/
def _get_maybe_new_id [DecidableEq κ] (tbl : List (Nat × κ)) (key : κ) :
    Nat × List (Nat × κ) :=
  match tbl.find? (fun r => r.snd = key) with
  | some r => (r.fst, tbl)
  | none =>
    let nid := nextRowId (tbl.map Prod.fst)
    (nid, tbl ++ [(nid, key)])

/-- `DataBase._get_maybe_new_command_id` (145-149). -/
def _get_maybe_new_command_id (s : Store) : Option PStr → Option Nat × Store
  | none => (none, s)
  | some c =>
    let (i, t) := _get_maybe_new_id s.command_list c
    (some i, { s with command_list := t })

/-- `DataBase._get_maybe_new_directory_id` (151-156): the value is passed
through `normalize_directory` before resolution. -/
def _get_maybe_new_directory_id (pcwd : PStr) (s : Store) :
    Option PStr → Option Nat × Store
  | none => (none, s)
  | some d =>
    let (i, t) := _get_maybe_new_id s.directory_list (normalize_directory pcwd d)
    (some i, { s with directory_list := t })

/-- `DataBase._get_maybe_new_terminal_id` (158-162). -/
def _get_maybe_new_terminal_id (s : Store) : Option PStr → Option Nat × Store
  | none => (none, s)
  | some t0 =>
    let (i, t) := _get_maybe_new_id s.terminal_list t0
    (some i, { s with terminal_list := t })

/-! ## Record importer

`ef`/`pf` are the failure oracle for claim C2's error model: `ef = some i`
means the `i`-th `command_environment_map` insertion (counting accepted
name/value pairs from 0) raises, `pf = some i` the `i`-th `pipe_status_map`
insertion.  `none` is the failure-free run.  Each loop returns whether it
completed together with the table state after the inserts it performed. -/

/-- `DataBase._insert_command_history` (99-114): resolve the three dimension
ids, insert the fact row, return `db.lastrowid`. -/
def _insert_command_history (pcwd : PStr) (s : Store) (crec : CommandRecord) :
    Nat × Store :=
  let (cid, s1) := _get_maybe_new_command_id s crec.command
  let (did, s2) := _get_maybe_new_directory_id pcwd s1 crec.cwd
  let (tid, s3) := _get_maybe_new_terminal_id s2 crec.terminal
  let chid := nextRowId (s3.command_history.map CHRow.id)
  (chid, { s3 with command_history := s3.command_history ++
      [⟨chid, cid, did, tid, crec.start, crec.stop, crec.exit_code⟩] })

/-- Loop of `DataBase._insert_environ` (116-131): skip pairs with a null
name or value, resolve the (name, value) dimension id, link it to the fact
row.  `k` counts the accepted pairs already inserted. -/
def insertEnvLoop (ef : Option Nat) (k : Nat) (chid : Nat) (s : Store) :
    List (Option PStr × Option PStr) → Bool × Store
  | [] => (true, s)
  | (name, value) :: rest =>
    match name, value with
    | some n, some v =>
      if ef = some k then (false, s)
      else
        let (evid, t) := _get_maybe_new_id s.environment_variable (n, v)
        let s1 := { s with environment_variable := t }
        let s2 := { s1 with command_environment_map :=
            s1.command_environment_map ++ [(chid, evid)] }
        insertEnvLoop ef (k + 1) chid s2 rest
    | _, _ => insertEnvLoop ef k chid s rest

/-- `DataBase._insert_environ` (116-131); an empty map is a no-op. -/
def _insert_environ (ef : Option Nat) (s : Store) (chid : Nat)
    (environ : List (Option PStr × Option PStr)) : Bool × Store :=
  insertEnvLoop ef 0 chid s environ

/-- Loop of `DataBase._insert_pipe_status` (133-143): one row per pipeline
position `k` (0-based enumeration order, never reordered). -/
def insertPipeLoop (pf : Option Nat) (k : Nat) (chid : Nat) (s : Store) :
    List Int → Bool × Store
  | [] => (true, s)
  | code :: rest =>
    if pf = some k then (false, s)
    else insertPipeLoop pf (k + 1) chid
      { s with pipe_status_map := s.pipe_status_map ++ [(chid, k, code)] } rest

/-- `DataBase._insert_pipe_status` (133-143). -/
def _insert_pipe_status (pf : Option Nat) (s : Store) (chid : Nat)
    (pipestatus : List Int) : Bool × Store :=
  insertPipeLoop pf 0 chid s pipestatus

/-- The row insertions of one `import_dict` body (database.py 94-96), with
the failure oracle: returns whether every insert succeeded together with the
table state after the inserts actually performed. -/
def importRows (pcwd : PStr) (ef pf : Option Nat) (s : Store)
    (crec : CommandRecord) : Bool × Store :=
  let (chid, s1) := _insert_command_history pcwd s crec
  let (ok1, s2) := _insert_environ ef s1 chid crec.environ
  if ok1 then _insert_pipe_status pf s2 chid crec.pipestatus
  else (false, s2)

/-- `DataBase.select_by_command_record` (181-183): returns the empty list
unconditionally (the `raise NotImplementedError` after the `return` is dead
code). -/
def select_by_command_record (_crec : CommandRecord) : List CommandRecord := []

/-- `DataBase.import_dict` (88-97) at the store level: the net effect on the
committed store of an import whose transaction succeeds (`runImportDict`
below adds the connection/transaction layer). -/
def import_dict (pcwd : PStr) (s : Store) (dct : CommandRecord)
    (check_duplicate : Bool) : Store :=
  if check_duplicate && nonempty (select_by_command_record dct) then s
  else (importRows pcwd none none s dct).snd

/-! ## Connection manager (`DataBase.connection`, database.py 59-75)

`_get_db` wraps the fresh connection in `contextlib.closing`, so leaving the
`with self._get_db() as db` block closes the connection, rolling back any
uncommitted writes; and the `finally` clause assigns `self.db = None` — the
attribute `db`, not `_db` — so `self._db` keeps referencing the now-closed
connection object.  A connection's `snapshot` is the store as this
connection sees it (committed state plus its own uncommitted writes);
`disk` is the committed state every other reader sees. -/

structure Conn where
  isOpen : Bool
  snapshot : Store
deriving DecidableEq, Repr

structure DBState where
  disk : Store
  dbField : Option Conn
deriving DecidableEq, Repr

/-- A fresh `DataBase(dbpath)` on a path that did not exist yet
(database.py 37-41): initialized schema, no held connection. -/
def freshDB : DBState := { disk := initStore, dbField := none }

inductive OpError where
  | connClosed
  | insertFailed
deriving DecidableEq, Repr

/-- `DataBase.connection` (59-75): when `self._db` is set it is yielded as
is (sqlite3 connections are always truthy) and nothing happens on exit;
otherwise a fresh open connection is stored in `self._db` and yielded, and
on exit — whether the body succeeded or raised — `closing` closes it
(discarding its uncommitted snapshot) while the typo'd `finally` clause
leaves `self._db` pointing at the closed connection. -/
def runWithConnection (s : DBState)
    (body : Conn → Store → (Except OpError α) × Conn × Store) :
    Except OpError α × DBState :=
  match s.dbField with
  | some c =>
    let (r, c2, d2) := body c s.disk
    (r, { disk := d2, dbField := some c2 })
  | none =>
    let c0 : Conn := { isOpen := true, snapshot := s.disk }
    let (r, c2, d2) := body c0 s.disk
    (r, { disk := d2, dbField := some { c2 with isOpen := false } })

/-- Body of `import_dict`'s `with self.connection()` block (92-97): obtain a
cursor (fails on a closed connection), perform the inserts on the
connection's snapshot, and on full success `connection.commit()` publishes
the snapshot as the committed store. -/
def importBody (pcwd : PStr) (ef pf : Option Nat) (crec : CommandRecord)
    (c : Conn) (disk : Store) : Except OpError Unit × Conn × Store :=
  if c.isOpen then
    let (ok, snap) := importRows pcwd ef pf c.snapshot crec
    if ok then (Except.ok (), { c with snapshot := snap }, snap)
    else (Except.error OpError.insertFailed, { c with snapshot := snap }, disk)
  else (Except.error OpError.connClosed, c, disk)

/-- `DataBase.import_dict` (88-97) with the connection and transaction
layer and the failure oracle. -/
def runImportDict (pcwd : PStr) (s : DBState) (dct : CommandRecord)
    (check_duplicate : Bool) (ef pf : Option Nat) :
    Except OpError Unit × DBState :=
  if check_duplicate && nonempty (select_by_command_record dct) then
    (Except.ok (), s)
  else runWithConnection s (importBody pcwd ef pf dct)

/-! ## Search compiler (`_compile_sql_search_command_record`, 198-238) -/

/-- A value bound positionally into the compiled statement. -/
inductive Param where
  | pstr : PStr → Param
  | pint : Int → Param
deriving DecidableEq, Repr

/-- The keyword arguments of `search_command_record` used by the compiler. -/
structure SearchArgs where
  limit : Int
  pattern : List PStr
  cwd : List PStr
  cwd_glob : List PStr
  unique : Bool
deriving DecidableEq, Repr

/-- `concat_expr` (database.py 13-21): join `conditions` with the operator
(spaces around it, Python `' {0} '.format(operator)`), wrap the joined
expression in parentheses, and return it as a one-element list — or the
empty list when the joined expression is empty. -/
def concat_expr (operator : PStr) (conditions : List PStr) : List PStr :=
  let expr := strJoin (' ' :: operator ++ [' ']) conditions
  if expr = [] then [] else [('(' :: expr) ++ [')']]

/-- `'glob(?, {0})'.format(name)`. -/
def globTemplate (name : PStr) : PStr := pystr "glob(?, " ++ name ++ pystr ")"

/-- `'{0} = ?'.format(name)`. -/
def eqTemplate (name : PStr) : PStr := name ++ pystr " = ?"

/-- `add_or_match` (database.py 208-211): extend the accumulated conditions
with the OR-combination of one formatted condition per argument, and append
the arguments to the bound parameters in the same order. -/
def add_or_match (template : PStr → PStr) (name : PStr) (args : List PStr)
    (st : List PStr × List Param) : List PStr × List Param :=
  (st.fst ++ concat_expr (pystr "OR") (repeatItem (template name) args.length),
   st.snd ++ args.map Param.pstr)

structure CompiledQuery where
  sql : PStr
  params : List Param
  keys : List PStr
deriving DecidableEq, Repr

/-- The fixed FROM/JOIN section of the emitted statement. -/
def sqlJoins : PStr :=
  pystr "FROM command_history "
  ++ pystr "LEFT JOIN command_list AS CL ON command_id = CL.id "
  ++ pystr "LEFT JOIN directory_list AS DL ON directory_id = DL.id "
  ++ pystr "LEFT JOIN terminal_list AS TL ON terminal_id = TL.id "

/-- `DataBase._compile_sql_search_command_record` (198-238). -/
def _compile_sql_search_command_record (pcwd : PStr) (a : SearchArgs) :
    CompiledQuery :=
  let keys := [pystr "command", pystr "cwd", pystr "terminal",
               pystr "start", pystr "stop", pystr "exit_code"]
  let columns := [pystr "CL.command", pystr "DL.directory", pystr "TL.terminal",
                  pystr "start_time", pystr "stop_time", pystr "exit_code"]
  let st1 := add_or_match globTemplate (pystr "CL.command") a.pattern ([], [])
  let st2 := add_or_match globTemplate (pystr "DL.directory") a.cwd_glob st1
  let st3 := add_or_match eqTemplate (pystr "DL.directory")
      (a.cwd.map (normalize_directory pcwd)) st2
  let conditions := st3.fst
  let whereClause :=
    if conditions = [] then []
    else pystr "WHERE " ++ strJoin (pystr " AND ") conditions ++ [' ']
  let columns2 :=
    if a.unique then columns.set 3 (pystr "MAX(" ++ columns.getD 3 [] ++ pystr ")")
    else columns
  let groupBy := if a.unique then pystr "GROUP BY CL.command " else []
  let sql :=
    pystr "SELECT " ++ strJoin (pystr ", ") columns2 ++ [' ']
    ++ sqlJoins
    ++ whereClause ++ groupBy ++ [' ']
    ++ pystr "ORDER BY start_time "
    ++ pystr "LIMIT ?"
  { sql := sql, params := st3.snd ++ [Param.pint a.limit], keys := keys }

/-! ## Search semantics

`search_command_record` (185-196) executes the compiled statement and
re-hydrates each row.  The functions below give the SQLite semantics of the
emitted statement over the modelled store. -/

/-- One re-hydrated output row (the `keys` field set). -/
structure JoinedRow where
  command : Option PStr
  cwd : Option PStr
  terminal : Option PStr
  start : Option Int
  stop : Option Int
  exit_code : Option Int
deriving DecidableEq, Repr

/-- Dimension lookup for the LEFT JOINs: the value of the row with the given
id, or NULL when the foreign key is NULL. -/
def lookupDim (tbl : List (Nat × PStr)) (i : Nat) : Option PStr :=
  (tbl.find? (fun r => r.fst = i)).map Prod.snd

/-- One fact row after the three LEFT JOINs. -/
def joinRow (s : Store) (ch : CHRow) : JoinedRow :=
  { command := ch.command_id.bind (lookupDim s.command_list)
    cwd := ch.directory_id.bind (lookupDim s.directory_list)
    terminal := ch.terminal_id.bind (lookupDim s.terminal_list)
    start := ch.start_time
    stop := ch.stop_time
    exit_code := ch.exit_code }

/-- The WHERE clause emitted by the compiler, evaluated on a joined row: an
empty criterion category contributes no clause (vacuously true); inside a
category the sub-conditions are OR-ed; a NULL column satisfies neither a
glob nor an equality condition (SQL three-valued logic: NULL is not
matched). -/
def matchesWhere (pcwd : PStr) (a : SearchArgs) (r : JoinedRow) : Bool :=
  (a.pattern.isEmpty || a.pattern.any (fun p =>
    match r.command with
    | some c => globMatch p c
    | none => false))
  && (a.cwd_glob.isEmpty || a.cwd_glob.any (fun p =>
    match r.cwd with
    | some d => globMatch p d
    | none => false))
  && (a.cwd.isEmpty || a.cwd.any (fun d =>
    r.cwd = some (normalize_directory pcwd d)))

/-- The joined rows that pass the WHERE clause. -/
def matchedRows (pcwd : PStr) (s : Store) (a : SearchArgs) : List JoinedRow :=
  (s.command_history.map (joinRow s)).filter (matchesWhere pcwd a)

/-- SQL `MAX(start_time)` over a group: NULLs are ignored; NULL when no
non-NULL value exists. -/
def maxStart : List JoinedRow → Option Int
  | [] => none
  | r :: rs =>
    match r.start, maxStart rs with
    | none, m => m
    | some a, none => some a
    | some a, some b => some (max a b)

/-- The distinct `GROUP BY CL.command` keys in first-appearance order (SQL
GROUP BY treats NULLs as one group). -/
def firstKeys : List JoinedRow → List (Option PStr)
  | [] => []
  | r :: rs => r.command :: (firstKeys rs).filter (fun k => k ≠ r.command)

/-- The rows of one GROUP BY group. -/
def groupRows (rows : List JoinedRow) (k : Option PStr) : List JoinedRow :=
  rows.filter (fun r => r.command = k)

/-- The output row of one group under SQLite's bare-column rule: with a lone
`MAX()` aggregate in the SELECT, every bare column — including the
`ORDER BY start_time` term — takes its value from a row attaining the group
maximum (the first such row in scan order); the aggregate column itself is
the maximum.  The default branch is unreachable for nonempty groups. -/
def groupRep (rows : List JoinedRow) : JoinedRow :=
  match rows.find? (fun r => r.start = maxStart rows) with
  | some r => { r with start := maxStart rows }
  | none => { command := none, cwd := none, terminal := none,
              start := maxStart rows, stop := none, exit_code := none }

/-- `ORDER BY start_time` comparison: ascending, NULLs first. -/
def startLe : Option Int → Option Int → Bool
  | none, _ => true
  | some _, none => false
  | some a, some b => decide (a ≤ b)

def insertByStart (r : JoinedRow) : List JoinedRow → List JoinedRow
  | [] => [r]
  | x :: xs =>
    if startLe r.start x.start then r :: x :: xs else x :: insertByStart r xs

/-- Sort by start time ascending (insertion sort; SQLite does not promise
any particular tie order and no claim depends on one). -/
def sortByStart : List JoinedRow → List JoinedRow
  | [] => []
  | r :: rs => insertByStart r (sortByStart rs)

/-- SQL `LIMIT ?`: a negative bound means no limit. -/
def applyLimit (limit : Int) (l : List JoinedRow) : List JoinedRow :=
  if limit < 0 then l else l.take limit.toNat

/-- Semantics of the statement emitted by
`_compile_sql_search_command_record`, as executed by
`search_command_record`: LEFT JOIN the fact rows to the three dimension
tables, apply the WHERE clause, when `unique` is set reduce each
`GROUP BY CL.command` group to its `groupRep`, then ORDER BY start time
ascending and apply the LIMIT. -/
def searchEval (pcwd : PStr) (s : Store) (a : SearchArgs) : List JoinedRow :=
  let ms := matchedRows pcwd s a
  let rows :=
    if a.unique then (firstKeys ms).map (fun k => groupRep (groupRows ms k))
    else ms
  applyLimit a.limit (sortByStart rows)

/-- Body of `search_command_record`'s `with self.connection()` block
(193-196): obtaining a cursor and executing the statement fails on a closed
connection; otherwise the rows are produced from the connection's view of
the store. -/
def searchBody (pcwd : PStr) (a : SearchArgs) (c : Conn) (disk : Store) :
    Except OpError (List JoinedRow) × Conn × Store :=
  if c.isOpen then (Except.ok (searchEval pcwd c.snapshot a), c, disk)
  else (Except.error OpError.connClosed, c, disk)

/-- `DataBase.search_command_record` (185-196) with the connection layer. -/
def runSearch (pcwd : PStr) (s : DBState) (a : SearchArgs) :
    Except OpError (List JoinedRow) × DBState :=
  runWithConnection s (searchBody pcwd a)

/-! ## Export dispatch (`rash/export.py`)

`export_run` (27-52) opens the output sink, then dispatches on the format
inside a `try` whose `finally` closes the sink.  Only the I/O-relevant
events are traced; the exporter body itself is outside every claim. -/

inductive ExportEv where
  | openedSink : PStr → ExportEv
  | ranExporter : PStr → ExportEv
  | closedSink : ExportEv
deriving DecidableEq, Repr

/-- `SUPPORTED_FORMATS` (export.py 24). -/
def SUPPORTED_FORMATS : List PStr := [pystr "bash"]

/-- `get_exporter` (export.py 55-63): the dispatch table holds exactly the
`bash` exporter; any other format raises a ValueError carrying the message
built at lines 61-62. -/
def get_exporter (format : PStr) : Except PStr PStr :=
  if format = pystr "bash" then Except.ok (pystr "bash")
  else Except.error (pystr "Unsupported format: " ++ format
    ++ pystr ". Supported formats: " ++ strJoin (pystr ", ") SUPPORTED_FORMATS)

/-- `export_run` (export.py 27-52): for a file output the sink is opened
(created/truncated) at line 45, before `get_exporter` runs; on a dispatch
failure the `finally` clause closes the sink and the error propagates; for
`-` the sink is process stdout and is neither opened nor closed.  Returns
the ordered event trace and the outcome. -/
def export_run (format output : PStr) : List ExportEv × Except PStr Unit :=
  let openEvs :=
    if output = pystr "-" then [] else [ExportEv.openedSink output]
  let closeEvs :=
    if output = pystr "-" then [] else [ExportEv.closedSink]
  match get_exporter format with
  | Except.error msg => (openEvs ++ closeEvs, Except.error msg)
  | Except.ok tag =>
    (openEvs ++ [ExportEv.ranExporter tag] ++ closeEvs, Except.ok ())

/-! ## Concrete records and stores used by the end-to-end scenarios -/

/-- Record A of the spec's end-to-end scenario (§8). -/
def recA : CommandRecord :=
  { command := some (pystr "ls"), cwd := some (pystr "/home"),
    start := some 100 }

/-- Record B of the spec's end-to-end scenario (§8). -/
def recB : CommandRecord :=
  { command := some (pystr "ls"), cwd := some (pystr "/home"),
    start := some 200 }

/-- The store after importing `recA` then `recB` into a fresh store (two
importer invocations against the same store file). -/
def demoStore : Store :=
  import_dict (pystr "/") (import_dict (pystr "/") initStore recA true) recB true

/-- The single row the unique search of the scenario must return. -/
def demoRow : JoinedRow :=
  { command := some (pystr "ls"), cwd := some (pystr "/home"),
    terminal := none, start := some 200, stop := none, exit_code := none }

/-- A record whose working directory is the filesystem root (claim C10). -/
def recRoot : CommandRecord :=
  { command := some (pystr "pwd"), cwd := some (pystr "/"), start := some 5 }

/-- The store after importing `recRoot` into a fresh store. -/
def rootStore : Store := import_dict (pystr "/") initStore recRoot true

/-- The row a root-directory exact search must return. -/
def rootRow : JoinedRow :=
  { command := some (pystr "pwd"), cwd := some [],
    terminal := none, start := some 5, stop := none, exit_code := none }

/-- The per-group representative rows of the unique search, one per
distinct command text of `ms` (the body of `searchEval`'s unique branch). -/
def uniqueRows (ms : List JoinedRow) : List JoinedRow :=
  (firstKeys ms).map (fun k => groupRep (groupRows ms k))

/-- Specification-side clause builder (§4.4): the per-item conditions of
one criterion category OR-joined and wrapped in parentheses. -/
def orClause (cond : PStr) (n : Nat) : PStr :=
  ('(' :: strJoin (pystr " OR ") (List.replicate n cond)) ++ [')']

/-- Specification-side clause list: one parenthesized OR-clause per
non-empty criterion category, in the compiler's emission order. -/
def specClauses (a : SearchArgs) : List PStr :=
  (if a.pattern.length = 0 then []
    else [orClause (globTemplate (pystr "CL.command")) a.pattern.length])
  ++ (if a.cwd_glob.length = 0 then []
    else [orClause (globTemplate (pystr "DL.directory")) a.cwd_glob.length])
  ++ (if a.cwd.length = 0 then []
    else [orClause (eqTemplate (pystr "DL.directory")) a.cwd.length])

/-- Specification-side WHERE section: the category clauses AND-joined in
one WHERE clause, or nothing at all when no criterion was supplied. -/
def specWhere (a : SearchArgs) : PStr :=
  if specClauses a = [] then []
  else pystr "WHERE " ++ strJoin (pystr " AND ") (specClauses a) ++ [' ']

/-- The SELECT column list of the emitted statement (`MAX(start_time)`
replaces the start column in the unique case). -/
def specColumns (u : Bool) : List PStr :=
  if u then
    [pystr "CL.command", pystr "DL.directory", pystr "TL.terminal",
     pystr "MAX(start_time)", pystr "stop_time", pystr "exit_code"]
  else
    [pystr "CL.command", pystr "DL.directory", pystr "TL.terminal",
     pystr "start_time", pystr "stop_time", pystr "exit_code"]

/-- The GROUP BY section of the emitted statement. -/
def specGroup (u : Bool) : PStr :=
  if u then pystr "GROUP BY CL.command " else []

/-! ## Sanity examples -/

example : normalize_directory (pystr "/") (pystr "/a/b/") = pystr "/a/b" := by decide
example : normalize_directory (pystr "/") (pystr "/") = [] := by decide
example : normalize_directory (pystr "/") (pystr "//") = pystr "/" := by decide

example : globMatch (pystr "git *") (pystr "git commit") = true := by decide
example : globMatch (pystr "git *") (pystr "svn commit") = false := by decide
example : globMatch (pystr "ls") (pystr "ls") = true := by decide

/-! ## Lemmas about the identity resolver -/

theorem _get_maybe_new_id_stable [DecidableEq κ] (t : List (Nat × κ)) (k : κ) :
    _get_maybe_new_id (_get_maybe_new_id t k).snd k
      = ((_get_maybe_new_id t k).fst, (_get_maybe_new_id t k).snd) := by
  unfold _get_maybe_new_id
  cases h : t.find? (fun r => r.snd = k) with
  | some r => simp [h]
  | none =>
    have hfind :
        (t ++ [(nextRowId (t.map Prod.fst), k)]).find? (fun r => r.snd = k)
          = some (nextRowId (t.map Prod.fst), k) := by
      rw [List.find?_append, h]
      simp
    simp [h, hfind]

theorem _get_maybe_new_id_key_not_mem [DecidableEq κ] {t : List (Nat × κ)}
    {k : κ} (h : t.find? (fun r => r.snd = k) = none) :
    k ∉ t.map Prod.snd := by
  intro hmem
  obtain ⟨r, hr, hrk⟩ := List.mem_map.mp hmem
  have := List.find?_eq_none.mp h r hr
  simp [hrk] at this

theorem _get_maybe_new_id_nodup [DecidableEq κ] (t : List (Nat × κ)) (k : κ)
    (hn : (t.map Prod.snd).Nodup) :
    (((_get_maybe_new_id t k).snd).map Prod.snd).Nodup := by
  unfold _get_maybe_new_id
  cases h : t.find? (fun r => r.snd = k) with
  | some r => simpa [h] using hn
  | none =>
    have hk := _get_maybe_new_id_key_not_mem h
    simp only [h, List.map_append, List.map_cons, List.map_nil]
    exact List.Nodup.append hn (List.nodup_singleton k)
      (by simpa [List.disjoint_singleton] using hk)

/-! ## Lemmas about path normalization -/

theorem splitSep_ne_nil (p : PStr) : splitSep p ≠ [] := by
  cases p with
  | nil => simp [splitSep]
  | cons c rest =>
    by_cases hc : c = '/'
    · simp [splitSep, hc]
    · simp only [splitSep, if_neg hc]
      cases splitSep rest <;> simp

theorem splitSep_append_slash (p : PStr) :
    splitSep (p ++ ['/']) = splitSep p ++ [[]] := by
  induction p with
  | nil => simp [splitSep]
  | cons c rest ih =>
    by_cases hc : c = '/'
    · simp [splitSep, hc, ih]
    · obtain ⟨g, gs, hg⟩ := List.exists_cons_of_ne_nil (splitSep_ne_nil rest)
      simp only [List.cons_append, splitSep, if_neg hc, List.append_eq, ih, hg,
        List.cons_append]

theorem initialSlashes_append_slash (p : PStr) (h0 : p ≠ [])
    (h1 : p ≠ ['/']) (h2 : p ≠ ['/', '/']) :
    initialSlashes (p ++ ['/']) = initialSlashes p := by
  rcases p with _ | ⟨a, _ | ⟨b, _ | ⟨c, r⟩⟩⟩
  · exact absurd rfl h0
  · by_cases ha : a = '/'
    · exact absurd (by rw [ha]) h1
    · simp [initialSlashes, ha]
  · by_cases ha : a = '/'
    · subst ha
      by_cases hb : b = '/'
      · exact absurd (by rw [hb]) h2
      · simp [initialSlashes, hb]
    · simp [initialSlashes, ha]
  · simp [initialSlashes]

theorem normpath_append_slash (p : PStr) (h0 : p ≠ []) (h1 : p ≠ ['/'])
    (h2 : p ≠ ['/', '/']) : normpath (p ++ ['/']) = normpath p := by
  have hne : p ++ ['/'] ≠ [] := by simp
  simp only [normpath, if_neg hne, if_neg h0,
    initialSlashes_append_slash p h0 h1 h2, splitSep_append_slash,
    List.foldl_append]
  simp [normStep]

theorem isabs_append_slash (p : PStr) (h0 : p ≠ []) :
    isabs (p ++ ['/']) = isabs p := by
  unfold isabs
  rw [List.take_append_of_le_length]
  exact Nat.succ_le_of_lt (List.length_pos.mpr h0)

theorem isabs_ne_nil {p : PStr} (h : isabs p = true) : p ≠ [] := by
  intro he
  subst he
  simp [isabs] at h

theorem pyJoin_append_slash (pcwd p : PStr) (hab : isabs p = false)
    (h0 : p ≠ []) :
    pyJoin pcwd (p ++ ['/']) = pyJoin pcwd p ++ ['/'] := by
  unfold pyJoin
  rw [isabs_append_slash p h0, hab]
  by_cases hcw : pcwd = [] ∨ pcwd.getLast? = some '/'
  · simp [hcw]
  · simp [hcw]

theorem pyJoin_ne_root (pcwd p : PStr) (hc : isabs pcwd = true)
    (hab : isabs p = false) (h0 : p ≠ []) :
    pyJoin pcwd p ≠ [] ∧ pyJoin pcwd p ≠ ['/'] ∧ pyJoin pcwd p ≠ ['/', '/'] := by
  have hcw : pcwd ≠ [] := isabs_ne_nil hc
  have hlc : 0 < pcwd.length := List.length_pos.mpr hcw
  have hlp : 0 < p.length := List.length_pos.mpr h0
  unfold pyJoin
  rw [hab]
  simp only [Bool.false_eq_true, if_false]
  by_cases hbr : pcwd = [] ∨ pcwd.getLast? = some '/'
  · simp only [hbr, if_true]
    refine ⟨by simp [hcw], ?_, ?_⟩
    · intro he
      have := congrArg List.length he
      simp at this
      omega
    · intro he
      obtain ⟨w, t, hw⟩ := List.exists_cons_of_ne_nil hcw
      subst hw
      simp only [List.cons_append, List.cons.injEq] at he
      have ht : t ++ p = ['/'] := he.2
      have := congrArg List.length ht
      simp at this
      have ht0 : t = [] := by
        have : t.length = 0 := by omega
        exact List.eq_nil_of_length_eq_zero this
      subst ht0
      simp at ht
      subst ht
      simp [isabs] at hab
  · simp only [hbr, if_false]
    refine ⟨by simp, ?_, ?_⟩
    · intro he
      have := congrArg List.length he
      simp at this
      omega
    · intro he
      have := congrArg List.length he
      simp at this
      omega

theorem abspath_append_slash (pcwd p : PStr) (hc : isabs pcwd = true)
    (h0 : p ≠ []) (h1 : p ≠ ['/']) (h2 : p ≠ ['/', '/']) :
    abspath pcwd (p ++ ['/']) = abspath pcwd p := by
  unfold abspath
  rw [isabs_append_slash p h0]
  cases hab : isabs p with
  | true =>
    simp only [if_true]
    exact normpath_append_slash p h0 h1 h2
  | false =>
    simp only [Bool.false_eq_true, if_false]
    rw [pyJoin_append_slash pcwd p hab h0]
    obtain ⟨j0, j1, j2⟩ := pyJoin_ne_root pcwd p hc hab h0
    exact normpath_append_slash _ j0 j1 j2

theorem normalize_directory_append_slash (pcwd p : PStr)
    (hc : isabs pcwd = true) (h0 : p ≠ []) (h1 : p ≠ ['/'])
    (h2 : p ≠ ['/', '/']) :
    normalize_directory pcwd (p ++ ['/']) = normalize_directory pcwd p := by
  unfold normalize_directory
  rw [abspath_append_slash pcwd p hc h0 h1 h2]

/-- Resolving two directories whose normalized forms agree, one after the
other, yields the same Directory id. -/
theorem directory_resolve_same_id (pcwd : PStr) (s : Store) {p q : PStr}
    (h : normalize_directory pcwd p = normalize_directory pcwd q) :
    (_get_maybe_new_directory_id pcwd
        (_get_maybe_new_directory_id pcwd s (some p)).snd (some q)).fst
      = (_get_maybe_new_directory_id pcwd s (some p)).fst := by
  simp only [_get_maybe_new_directory_id, ← h]
  rcases he : _get_maybe_new_id s.directory_list (normalize_directory pcwd p)
    with ⟨i, t⟩
  have hs := _get_maybe_new_id_stable s.directory_list
    (normalize_directory pcwd p)
  rw [he] at hs
  simp [he, hs]

/-! ## Lemmas about the transaction layer and the importer -/

theorem importBody_error_disk (pcwd : PStr) (ef pf : Option Nat)
    (dct : CommandRecord) (c : Conn) (disk : Store) (e : OpError)
    (h : (importBody pcwd ef pf dct c disk).fst = Except.error e) :
    (importBody pcwd ef pf dct c disk).snd.snd = disk := by
  unfold importBody at h ⊢
  by_cases hop : c.isOpen = true
  · rw [if_pos hop] at h ⊢
    rcases hr : importRows pcwd ef pf c.snapshot dct with ⟨ok, snap⟩
    rw [hr] at h
    cases ok <;> simp_all
  · rw [if_neg hop] at h ⊢

theorem runWithConnection_eq_some {α : Type} (s : DBState)
    (body : Conn → Store → (Except OpError α) × Conn × Store) (c : Conn)
    (h : s.dbField = some c) :
    runWithConnection s body
      = ((body c s.disk).fst,
         { disk := (body c s.disk).snd.snd,
           dbField := some (body c s.disk).snd.fst }) := by
  unfold runWithConnection
  rw [h]

theorem runWithConnection_eq_none {α : Type} (s : DBState)
    (body : Conn → Store → (Except OpError α) × Conn × Store)
    (h : s.dbField = none) :
    runWithConnection s body
      = ((body ⟨true, s.disk⟩ s.disk).fst,
         { disk := (body ⟨true, s.disk⟩ s.disk).snd.snd,
           dbField := some
             ⟨false, (body ⟨true, s.disk⟩ s.disk).snd.fst.snapshot⟩ }) := by
  unfold runWithConnection
  rw [h]

theorem runWithConnection_error_disk {α : Type}
    (s : DBState) (body : Conn → Store → (Except OpError α) × Conn × Store)
    (hb : ∀ c disk e0, (body c disk).fst = Except.error e0 →
      (body c disk).snd.snd = disk) (e0 : OpError)
    (h : (runWithConnection s body).fst = Except.error e0) :
    (runWithConnection s body).snd.disk = s.disk := by
  cases hdb : s.dbField with
  | some c =>
    rw [runWithConnection_eq_some s body c hdb] at h ⊢
    exact hb c s.disk e0 h
  | none =>
    rw [runWithConnection_eq_none s body hdb] at h ⊢
    exact hb ⟨true, s.disk⟩ s.disk e0 h

theorem _get_maybe_new_command_id_ch (s : Store) (o : Option PStr) :
    ((_get_maybe_new_command_id s o).snd).command_history
      = s.command_history := by
  cases o with
  | none => rfl
  | some c =>
    unfold _get_maybe_new_command_id
    rcases he : _get_maybe_new_id s.command_list c with ⟨i, t⟩
    simp [he]

theorem _get_maybe_new_directory_id_ch (pcwd : PStr) (s : Store)
    (o : Option PStr) :
    ((_get_maybe_new_directory_id pcwd s o).snd).command_history
      = s.command_history := by
  cases o with
  | none => rfl
  | some d =>
    unfold _get_maybe_new_directory_id
    rcases he : _get_maybe_new_id s.directory_list
      (normalize_directory pcwd d) with ⟨i, t⟩
    simp [he]

theorem _get_maybe_new_terminal_id_ch (s : Store) (o : Option PStr) :
    ((_get_maybe_new_terminal_id s o).snd).command_history
      = s.command_history := by
  cases o with
  | none => rfl
  | some t0 =>
    unfold _get_maybe_new_terminal_id
    rcases he : _get_maybe_new_id s.terminal_list t0 with ⟨i, t⟩
    simp [he]

theorem _insert_command_history_ch (pcwd : PStr) (s : Store)
    (crec : CommandRecord) :
    (((_insert_command_history pcwd s crec).snd).command_history).length
      = s.command_history.length + 1 := by
  unfold _insert_command_history
  simp [_get_maybe_new_terminal_id_ch, _get_maybe_new_directory_id_ch,
    _get_maybe_new_command_id_ch]

theorem insertEnvLoop_ch (ef : Option Nat) (chid : Nat)
    (l : List (Option PStr × Option PStr)) :
    ∀ (k : Nat) (s : Store),
    ((insertEnvLoop ef k chid s l).snd).command_history
      = s.command_history := by
  induction l with
  | nil => intro k s; rfl
  | cons hd tl ih =>
    intro k s
    rcases hd with ⟨name, value⟩
    cases name with
    | none => exact ih k s
    | some n =>
      cases value with
      | none => exact ih k s
      | some v =>
        simp only [insertEnvLoop]
        by_cases hef : ef = some k
        · rw [if_pos hef]
        · rw [if_neg hef]
          rcases he : _get_maybe_new_id s.environment_variable (n, v)
            with ⟨evid, t⟩
          simp only [he]
          rw [ih]

theorem insertPipeLoop_ch (pf : Option Nat) (chid : Nat) (l : List Int) :
    ∀ (k : Nat) (s : Store),
    ((insertPipeLoop pf k chid s l).snd).command_history
      = s.command_history := by
  induction l with
  | nil => intro k s; rfl
  | cons code tl ih =>
    intro k s
    simp only [insertPipeLoop]
    by_cases hpf : pf = some k
    · rw [if_pos hpf]
    · rw [if_neg hpf]
      rw [ih]

theorem _insert_environ_ch (ef : Option Nat) (s : Store) (chid : Nat)
    (l : List (Option PStr × Option PStr)) :
    ((_insert_environ ef s chid l).snd).command_history
      = s.command_history :=
  insertEnvLoop_ch ef chid l 0 s

theorem _insert_pipe_status_ch (pf : Option Nat) (s : Store) (chid : Nat)
    (l : List Int) :
    ((_insert_pipe_status pf s chid l).snd).command_history
      = s.command_history :=
  insertPipeLoop_ch pf chid l 0 s

theorem importRows_ch_length (pcwd : PStr) (ef pf : Option Nat) (s : Store)
    (crec : CommandRecord) :
    (((importRows pcwd ef pf s crec).snd).command_history).length
      = s.command_history.length + 1 := by
  unfold importRows
  split
  next chid s1 heq =>
    have hs1 : s1.command_history.length = s.command_history.length + 1 := by
      have h2 := _insert_command_history_ch pcwd s crec
      rw [heq] at h2
      exact h2
    split
    next ok1 s2 heq2 =>
      have hs2 : s2.command_history = s1.command_history := by
        have h3 := _insert_environ_ch ef s1 chid crec.environ
        rw [heq2] at h3
        exact h3
      cases ok1 <;> simp [_insert_pipe_status_ch, hs2, hs1]

/-! ## Claim theorems -/

/-- C1 (code bug, evaluated at the failing input): on a fresh `DataBase` a
first import succeeds, but it leaves `self._db` referencing a connection
that the `closing()` wrapper already closed — the `finally` clause assigns
`self.db`, not `self._db` — so a second operation on the same instance
(import or search) is handed that closed connection and fails instead of
running on a usable open one; the second import also persists nothing. -/
theorem second_operation_gets_closed_connection :
    (runImportDict (pystr "/") freshDB recA true none none).fst
      = Except.ok ()
    ∧ ((runImportDict (pystr "/") freshDB recA true none none).snd.dbField.map
        Conn.isOpen) = some false
    ∧ (runImportDict (pystr "/")
        (runImportDict (pystr "/") freshDB recA true none none).snd
        recB true none none).fst = Except.error OpError.connClosed
    ∧ (runImportDict (pystr "/")
        (runImportDict (pystr "/") freshDB recA true none none).snd
        recB true none none).snd.disk
      = (runImportDict (pystr "/") freshDB recA true none none).snd.disk
    ∧ (runSearch (pystr "/")
        (runImportDict (pystr "/") freshDB recA true none none).snd
        { limit := 10, pattern := [pystr "ls"], cwd := [], cwd_glob := [],
          unique := false }).fst = Except.error OpError.connClosed := by
  decide

/-- C2: import is atomic — whenever any step of `import_dict` raises (the
failure oracle covers an environment-map or pipe-status insertion raising
mid-import, as well as operating on a closed connection), the committed
store is left exactly as it was: no CommandHistory row, join row or other
row from that import is visible. -/
theorem import_atomicity (pcwd : PStr) (s : DBState) (dct : CommandRecord)
    (cd : Bool) (ef pf : Option Nat) (e : OpError)
    (h : (runImportDict pcwd s dct cd ef pf).fst = Except.error e) :
    (runImportDict pcwd s dct cd ef pf).snd.disk = s.disk := by
  unfold runImportDict at h ⊢
  simp only [select_by_command_record, nonempty, List.isEmpty_nil,
    Bool.not_true, Bool.and_false, Bool.false_eq_true, if_false] at h ⊢
  exact runWithConnection_error_disk s _
    (fun c d e0 => importBody_error_disk pcwd ef pf dct c d e0) e h

/-- Witness for C2: the single environment-map insertion of a concrete
record raises mid-import on a fresh store; the import reports the failure
and the committed store is unchanged. -/
theorem import_atomicity_witness :
    (runImportDict (pystr "/") freshDB
      { command := some (pystr "x"),
        environ := [(some (pystr "A"), some (pystr "B"))] }
      true (some 0) none).fst = Except.error OpError.insertFailed
    ∧ (runImportDict (pystr "/") freshDB
      { command := some (pystr "x"),
        environ := [(some (pystr "A"), some (pystr "B"))] }
      true (some 0) none).snd.disk = freshDB.disk :=
  ⟨by decide,
    import_atomicity (pystr "/") freshDB
      { command := some (pystr "x"),
        environ := [(some (pystr "A"), some (pystr "B"))] }
      true (some 0) none OpError.insertFailed (by decide)⟩

/-- C8: the pre-import duplicate lookup returns the empty result for every
record, so an import with the check-duplicate flag set never skips — it
behaves exactly like one without the flag and always appends a new
CommandHistory fact row, even for a record identical to one already
stored. -/
theorem dedup_check_is_stub (pcwd : PStr) (s : Store) (crec : CommandRecord) :
    select_by_command_record crec = []
    ∧ import_dict pcwd s crec true = import_dict pcwd s crec false
    ∧ (import_dict pcwd s crec true).command_history.length
        = s.command_history.length + 1 := by
  exact ⟨rfl, rfl, importRows_ch_length pcwd none none s crec⟩

/-- C6: the get-or-create identity resolver is idempotent — for every
dimension table and identity key, resolving the same key twice returns the
same id both times and leaves the table unchanged the second time, and
resolution preserves the invariant that no dimension table contains two rows
with identical key-column values. -/
theorem get_or_create_idempotent {κ : Type} [DecidableEq κ]
    (t : List (Nat × κ)) (k : κ) :
    (_get_maybe_new_id (_get_maybe_new_id t k).snd k).fst
        = (_get_maybe_new_id t k).fst
    ∧ (_get_maybe_new_id (_get_maybe_new_id t k).snd k).snd
        = (_get_maybe_new_id t k).snd
    ∧ ((t.map Prod.snd).Nodup →
        (((_get_maybe_new_id t k).snd).map Prod.snd).Nodup) :=
  ⟨by rw [_get_maybe_new_id_stable],
   by rw [_get_maybe_new_id_stable],
   _get_maybe_new_id_nodup t k⟩

/-- Witness for C6 at a concrete table and key: resolving `"ls"` twice in a
table that already maps id 1 to `"cd"` gives id 2 both times, the second
resolution changes nothing, and key uniqueness is preserved. -/
theorem get_or_create_idempotent_witness :
    ((([(1, pystr "cd")] : List (Nat × PStr)).map Prod.snd).Nodup
        → ((_get_maybe_new_id [(1, pystr "cd")] (pystr "ls")).snd.map
            Prod.snd).Nodup)
    ∧ (_get_maybe_new_id
        (_get_maybe_new_id [(1, pystr "cd")] (pystr "ls")).snd
        (pystr "ls")).fst = 2
    ∧ ((_get_maybe_new_id [(1, pystr "cd")] (pystr "ls")).snd.map
        Prod.snd).Nodup :=
  ⟨(get_or_create_idempotent [(1, pystr "cd")] (pystr "ls")).2.2,
   by rw [(get_or_create_idempotent [(1, pystr "cd")] (pystr "ls")).1]; decide,
   (get_or_create_idempotent [(1, pystr "cd")] (pystr "ls")).2.2 (by decide)⟩

/-- C7 counterexample: `"/"` and `"//"` differ only by one trailing path
separator, yet `normalize_directory` sends them to `""` and `"/"`
respectively (CPython's `normpath` keeps exactly two leading slashes, per
POSIX), so resolving them as directory dimensions creates two distinct
Directory ids. -/
theorem directory_trailing_sep_counterexample :
    pystr "/" ++ ['/'] = pystr "//"
    ∧ normalize_directory (pystr "/") (pystr "/") = []
    ∧ normalize_directory (pystr "/") (pystr "//") = ['/']
    ∧ (_get_maybe_new_directory_id (pystr "/") initStore
        (some (pystr "/"))).fst = some 1
    ∧ (_get_maybe_new_directory_id (pystr "/")
        (_get_maybe_new_directory_id (pystr "/") initStore
          (some (pystr "/"))).snd
        (some (pystr "//"))).fst = some 2 := by decide

/-- C7 (amended): for every input path other than the degenerate root forms
(`""`, `"/"`, `"//"`), appending a trailing separator does not change the
normalized directory, and resolving the two forms one after the other
yields the same Directory id; likewise any two paths that are equal after
absolute resolution normalize identically and resolve to the same id; in
particular `/a/b/` and `/a/b` resolve to the same id. -/
theorem directory_normalization_amended (pcwd p p1 p2 : PStr)
    (s s2 : Store) (hc : isabs pcwd = true) (h0 : p ≠ []) (h1 : p ≠ ['/'])
    (h2 : p ≠ ['/', '/']) (h12 : abspath pcwd p1 = abspath pcwd p2) :
    (normalize_directory pcwd (p ++ ['/']) = normalize_directory pcwd p
      ∧ (_get_maybe_new_directory_id pcwd
          (_get_maybe_new_directory_id pcwd s (some p)).snd
          (some (p ++ ['/']))).fst
        = (_get_maybe_new_directory_id pcwd s (some p)).fst)
    ∧ (normalize_directory pcwd p1 = normalize_directory pcwd p2
      ∧ (_get_maybe_new_directory_id pcwd
          (_get_maybe_new_directory_id pcwd s2 (some p1)).snd
          (some p2)).fst
        = (_get_maybe_new_directory_id pcwd s2 (some p1)).fst)
    ∧ (_get_maybe_new_directory_id (pystr "/")
        (_get_maybe_new_directory_id (pystr "/") initStore
          (some (pystr "/a/b"))).snd
        (some (pystr "/a/b/"))).fst = some 1
    ∧ (_get_maybe_new_directory_id (pystr "/") initStore
        (some (pystr "/a/b"))).fst = some 1 := by
  have hnt := normalize_directory_append_slash pcwd p hc h0 h1 h2
  have hn12 : normalize_directory pcwd p1 = normalize_directory pcwd p2 := by
    unfold normalize_directory
    rw [h12]
  exact ⟨⟨hnt, directory_resolve_same_id pcwd s hnt.symm⟩,
    ⟨hn12, directory_resolve_same_id pcwd s2 hn12⟩,
    by decide, by decide⟩

/-- Witness for the amended C7 at concrete inputs: working directory `/`,
path `/a/b` with its trailing-separator variant, and the pair
`/a/./b` / `/a/b` which are equal after absolute resolution. -/
theorem directory_normalization_amended_witness :
    isabs (pystr "/") = true
    ∧ abspath (pystr "/") (pystr "/a/./b") = abspath (pystr "/") (pystr "/a/b")
    ∧ normalize_directory (pystr "/") (pystr "/a/b" ++ ['/'])
        = normalize_directory (pystr "/") (pystr "/a/b")
    ∧ normalize_directory (pystr "/") (pystr "/a/./b")
        = normalize_directory (pystr "/") (pystr "/a/b") :=
  ⟨by decide, by decide,
    ((directory_normalization_amended (pystr "/") (pystr "/a/b")
      (pystr "/a/./b") (pystr "/a/b") initStore initStore (by decide)
      (by decide) (by decide) (by decide) (by decide)).1).1,
    ((directory_normalization_amended (pystr "/") (pystr "/a/b")
      (pystr "/a/./b") (pystr "/a/b") initStore initStore (by decide)
      (by decide) (by decide) (by decide) (by decide)).2).1.1⟩

/-- C10: `normalize_directory` sends the filesystem root `/` to the empty
string whatever the process working directory is; importing a record whose
cwd is `/` therefore stores the Directory dimension value `""` (not `"/"`);
and an exact-directory search for `/` binds the same normalized value `""`
as its parameter and still matches that row. -/
theorem root_directory_normalization (pcwd : PStr) :
    normalize_directory pcwd (pystr "/") = []
    ∧ rootStore.directory_list = [(1, [])]
    ∧ (_compile_sql_search_command_record (pystr "/")
        { limit := 10, pattern := [], cwd := [pystr "/"], cwd_glob := [],
          unique := false }).params = [Param.pstr [], Param.pint 10]
    ∧ searchEval (pystr "/") rootStore
        { limit := 10, pattern := [], cwd := [pystr "/"], cwd_glob := [],
          unique := false } = [rootRow] := by
  refine ⟨?_, by decide, by decide, by decide⟩
  have h : isabs (pystr "/") = true := by decide
  simp only [normalize_directory, abspath, h, if_true]
  decide

/-- C4: the bound parameters of every compiled search statement are exactly
the command glob patterns in the supplied order, then the directory glob
patterns, then the exact directories — each passed through
`normalize_directory`, the same normalization `_get_maybe_new_directory_id`
applies on import — and finally the limit as the last bound parameter. -/
theorem compile_param_order (pcwd : PStr) (a : SearchArgs) :
    (_compile_sql_search_command_record pcwd a).params
      = a.pattern.map Param.pstr
        ++ a.cwd_glob.map Param.pstr
        ++ (a.cwd.map (normalize_directory pcwd)).map Param.pstr
        ++ [Param.pint a.limit] := by
  simp [_compile_sql_search_command_record, add_or_match, List.append_assoc]

/-! ## Lemmas about the unique-search pipeline -/

theorem firstKeys_nodup (l : List JoinedRow) : (firstKeys l).Nodup := by
  induction l with
  | nil => exact List.nodup_nil
  | cons r rs ih =>
    simp only [firstKeys]
    refine List.Nodup.cons ?_ (List.Nodup.filter _ ih)
    intro hmem
    have := List.of_mem_filter hmem
    simp at this

theorem groupRows_ne_nil (l : List JoinedRow) (k : Option PStr)
    (h : k ∈ firstKeys l) : groupRows l k ≠ [] := by
  induction l with
  | nil => simp [firstKeys] at h
  | cons r rs ih =>
    simp only [firstKeys] at h
    rw [List.mem_cons] at h
    rcases h with h | h
    · unfold groupRows
      simp [List.filter_cons, h]
    · have hk := ih (List.mem_of_mem_filter h)
      unfold groupRows at hk ⊢
      simp only [List.filter_cons]
      by_cases hr : r.command = k <;> simp [hr, hk]

theorem maxStart_none_head (r : JoinedRow) (rs : List JoinedRow)
    (h : maxStart (r :: rs) = none) : r.start = none := by
  simp only [maxStart] at h
  cases hr : r.start with
  | none => rfl
  | some a =>
    simp only [hr] at h
    cases hm : maxStart rs <;> simp [hm] at h

theorem maxStart_some_mem (l : List JoinedRow) (v : Int)
    (h : maxStart l = some v) : ∃ r ∈ l, r.start = some v := by
  induction l with
  | nil => simp [maxStart] at h
  | cons r rs ih =>
    simp only [maxStart] at h
    cases hr : r.start with
    | none =>
      simp only [hr] at h
      obtain ⟨x, hx, hxs⟩ := ih h
      exact ⟨x, List.mem_cons_of_mem _ hx, hxs⟩
    | some a =>
      simp only [hr] at h
      cases hm : maxStart rs with
      | none =>
        simp only [hm] at h
        exact ⟨r, List.mem_cons_self _ _, by rw [hr]; exact h⟩
      | some b =>
        simp only [hm] at h
        have hv : max a b = v := Option.some.inj h
        rcases max_choice a b with hc | hc
        · exact ⟨r, List.mem_cons_self _ _,
            by rw [hr]; rw [hc] at hv; rw [hv]⟩
        · obtain ⟨x, hx, hxs⟩ :=
            ih (by rw [hm]; exact congrArg some (hc.symm.trans hv))
          exact ⟨x, List.mem_cons_of_mem _ hx, hxs⟩

theorem groupRep_start (rows : List JoinedRow) :
    (groupRep rows).start = maxStart rows := by
  unfold groupRep
  cases h : rows.find? (fun r => r.start = maxStart rows) <;> rfl

theorem groupRep_command (rows : List JoinedRow) (hne : rows ≠ []) :
    ∃ r ∈ rows, (groupRep rows).command = r.command := by
  unfold groupRep
  cases hf : rows.find? (fun r => r.start = maxStart rows) with
  | some r => exact ⟨r, List.mem_of_find?_eq_some hf, rfl⟩
  | none =>
    exfalso
    cases hm : maxStart rows with
    | none =>
      obtain ⟨r0, rest, rfl⟩ := List.exists_cons_of_ne_nil hne
      have h0 : r0.start = none := maxStart_none_head r0 rest hm
      have := List.find?_eq_none.mp hf r0 (List.mem_cons_self _ _)
      simp [h0, hm] at this
    | some v =>
      obtain ⟨x, hx, hxs⟩ := maxStart_some_mem rows v hm
      have := List.find?_eq_none.mp hf x hx
      simp [hxs, hm] at this

theorem rep_of_key (ms : List JoinedRow) (k : Option PStr)
    (h : k ∈ firstKeys ms) :
    (groupRep (groupRows ms k)).command = k
    ∧ (groupRep (groupRows ms k)).start = maxStart (groupRows ms k) := by
  have hne := groupRows_ne_nil ms k h
  obtain ⟨r, hr, hc⟩ := groupRep_command (groupRows ms k) hne
  have hk : r.command = k := by
    unfold groupRows at hr
    have := List.of_mem_filter hr
    simpa using this
  exact ⟨hc.trans hk, groupRep_start _⟩

theorem insertByStart_perm (r : JoinedRow) (l : List JoinedRow) :
    List.Perm (insertByStart r l) (r :: l) := by
  induction l with
  | nil => exact List.Perm.refl _
  | cons x xs ih =>
    unfold insertByStart
    by_cases h : startLe r.start x.start = true
    · rw [if_pos h]
    · rw [if_neg h]
      exact (ih.cons x).trans (List.Perm.swap r x xs)

theorem sortByStart_perm (l : List JoinedRow) :
    List.Perm (sortByStart l) l := by
  induction l with
  | nil => exact List.Perm.refl _
  | cons r rs ih =>
    exact (insertByStart_perm r (sortByStart rs)).trans (ih.cons r)

theorem startLe_total (a b : Option Int) :
    startLe a b = true ∨ startLe b a = true := by
  cases a <;> cases b <;> simp [startLe]
  omega

theorem startLe_trans (a b c : Option Int) (h1 : startLe a b = true)
    (h2 : startLe b c = true) : startLe a c = true := by
  cases a <;> cases b <;> cases c <;> simp_all [startLe]
  omega

theorem pairwise_insertByStart (r : JoinedRow) (l : List JoinedRow)
    (hl : l.Pairwise (fun x y => startLe x.start y.start = true)) :
    (insertByStart r l).Pairwise
      (fun x y => startLe x.start y.start = true) := by
  induction l with
  | nil => simp [insertByStart]
  | cons x xs ih =>
    rcases List.pairwise_cons.mp hl with ⟨hx, hxs⟩
    unfold insertByStart
    by_cases h : startLe r.start x.start = true
    · rw [if_pos h]
      refine List.pairwise_cons.mpr ⟨?_, hl⟩
      intro y hy
      rcases List.mem_cons.mp hy with rfl | hy
      · exact h
      · exact startLe_trans _ _ _ h (hx y hy)
    · rw [if_neg h]
      refine List.pairwise_cons.mpr ⟨?_, ih hxs⟩
      intro y hy
      have hy2 := (insertByStart_perm r xs).mem_iff.mp hy
      rcases List.mem_cons.mp hy2 with hEq | hy2
      · subst hEq
        rcases startLe_total y.start x.start with ht | ht
        · exact absurd ht h
        · exact ht
      · exact hx y hy2

theorem sortByStart_pairwise (l : List JoinedRow) :
    (sortByStart l).Pairwise
      (fun x y => startLe x.start y.start = true) := by
  induction l with
  | nil => simp [sortByStart]
  | cons r rs ih => exact pairwise_insertByStart r _ ih

theorem applyLimit_sublist (limit : Int) (l : List JoinedRow) :
    (applyLimit limit l).Sublist l := by
  unfold applyLimit
  by_cases h : limit < 0
  · rw [if_pos h]
  · rw [if_neg h]
    exact List.take_sublist _ _

theorem uniqueRows_commands (ms : List JoinedRow) :
    (uniqueRows ms).map JoinedRow.command = firstKeys ms := by
  unfold uniqueRows
  rw [List.map_map]
  calc (firstKeys ms).map
        (JoinedRow.command ∘ fun k => groupRep (groupRows ms k))
      = (firstKeys ms).map id :=
        List.map_congr_left (fun k hk => (rep_of_key ms k hk).1)
    _ = firstKeys ms := List.map_id _

theorem uniqueOut_nodup (ms : List JoinedRow) (limit : Int) :
    ((applyLimit limit (sortByStart (uniqueRows ms))).map
      JoinedRow.command).Nodup := by
  have h2 : ((sortByStart (uniqueRows ms)).map JoinedRow.command).Nodup := by
    have hp : List.Perm
        ((sortByStart (uniqueRows ms)).map JoinedRow.command)
        ((uniqueRows ms).map JoinedRow.command) :=
      (sortByStart_perm (uniqueRows ms)).map _
    exact hp.nodup_iff.mpr (uniqueRows_commands ms ▸ firstKeys_nodup ms)
  exact List.Nodup.sublist ((applyLimit_sublist limit _).map _) h2

theorem uniqueOut_start (ms : List JoinedRow) (limit : Int) (r : JoinedRow)
    (hr : r ∈ applyLimit limit (sortByStart (uniqueRows ms))) :
    r.start = maxStart (groupRows ms r.command) := by
  have hr2 : r ∈ sortByStart (uniqueRows ms) :=
    (applyLimit_sublist limit _).subset hr
  have hr3 : r ∈ uniqueRows ms := (sortByStart_perm _).mem_iff.mp hr2
  obtain ⟨k, hk, hkr⟩ := List.mem_map.mp hr3
  obtain ⟨hc, hs⟩ := rep_of_key ms k hk
  rw [← hkr, hc]
  exact hs

theorem uniqueOut_sorted (ms : List JoinedRow) (limit : Int) :
    (applyLimit limit (sortByStart (uniqueRows ms))).Pairwise
      (fun x y => startLe x.start y.start = true) :=
  List.Pairwise.sublist (applyLimit_sublist limit _) (sortByStart_pairwise _)

theorem strJoin_replicate_ne_nil (sep c : PStr) (h : c ≠ []) (n : Nat) :
    strJoin sep (List.replicate (n + 1) c) ≠ [] := by
  cases n with
  | zero => simpa [strJoin] using h
  | succ m =>
    rw [List.replicate_succ, List.replicate_succ]
    simp only [strJoin]
    intro he
    rcases List.append_eq_nil.mp he with ⟨h1, _⟩
    rcases List.append_eq_nil.mp h1 with ⟨h2, _⟩
    exact h h2

theorem concat_expr_replicate (op c : PStr) (hcne : c ≠ []) (n : Nat) :
    concat_expr op (repeatItem c n)
      = if n = 0 then []
        else [('(' :: strJoin (' ' :: op ++ [' ']) (List.replicate n c))
          ++ [')']] := by
  cases n with
  | zero => rfl
  | succ m =>
    rw [if_neg (Nat.succ_ne_zero m)]
    unfold concat_expr repeatItem
    rw [if_neg (strJoin_replicate_ne_nil (' ' :: op ++ [' ']) c hcne m)]

/-- C5: for every set of filter criteria the compiled statement's WHERE
section is `specWhere`: each non-empty category contributes its sub-
conditions OR-joined and parenthesized, the categories are AND-joined in a
single WHERE clause, and when every category is empty no WHERE clause is
emitted at all — the statement still ending in
`ORDER BY start_time LIMIT ?`. -/
theorem compile_where_structure (pcwd : PStr) (a : SearchArgs) :
    ((_compile_sql_search_command_record pcwd a).sql
      = pystr "SELECT " ++ strJoin (pystr ", ") (specColumns a.unique)
        ++ [' '] ++ sqlJoins ++ specWhere a ++ specGroup a.unique
        ++ [' '] ++ pystr "ORDER BY start_time " ++ pystr "LIMIT ?")
    ∧ (a.pattern = [] → a.cwd_glob = [] → a.cwd = [] →
        (_compile_sql_search_command_record pcwd a).sql
          = pystr "SELECT " ++ strJoin (pystr ", ") (specColumns a.unique)
            ++ [' '] ++ sqlJoins ++ specGroup a.unique
            ++ [' '] ++ pystr "ORDER BY start_time " ++ pystr "LIMIT ?") := by
  have hOR : (' ' :: pystr "OR" ++ [' ']) = pystr " OR " := rfl
  have h1 : concat_expr (pystr "OR")
      (repeatItem (globTemplate (pystr "CL.command")) a.pattern.length)
      = if a.pattern.length = 0 then []
        else [orClause (globTemplate (pystr "CL.command"))
          a.pattern.length] := by
    rw [concat_expr_replicate (pystr "OR") _ (by decide) a.pattern.length,
      hOR]
    rfl
  have h2 : concat_expr (pystr "OR")
      (repeatItem (globTemplate (pystr "DL.directory")) a.cwd_glob.length)
      = if a.cwd_glob.length = 0 then []
        else [orClause (globTemplate (pystr "DL.directory"))
          a.cwd_glob.length] := by
    rw [concat_expr_replicate (pystr "OR") _ (by decide) a.cwd_glob.length,
      hOR]
    rfl
  have h3 : concat_expr (pystr "OR")
      (repeatItem (eqTemplate (pystr "DL.directory"))
        ((a.cwd.map (normalize_directory pcwd)).length))
      = if a.cwd.length = 0 then []
        else [orClause (eqTemplate (pystr "DL.directory"))
          a.cwd.length] := by
    rw [List.length_map,
      concat_expr_replicate (pystr "OR") _ (by decide) a.cwd.length, hOR]
    rfl
  have hmain : (_compile_sql_search_command_record pcwd a).sql
      = pystr "SELECT " ++ strJoin (pystr ", ") (specColumns a.unique)
        ++ [' '] ++ sqlJoins ++ specWhere a ++ specGroup a.unique
        ++ [' '] ++ pystr "ORDER BY start_time " ++ pystr "LIMIT ?" := by
    unfold _compile_sql_search_command_record add_or_match
    simp only [List.nil_append, h1, h2, h3, specWhere, specClauses,
      specColumns, specGroup]
    cases hu : a.unique <;> rfl
  refine ⟨hmain, fun hp hg hc => ?_⟩
  rw [hmain]
  have hw : specWhere a = [] := by
    simp [specWhere, specClauses, hp, hg, hc]
  rw [hw]
  simp [List.append_nil]

/-- Witness for C5 at a concrete no-criteria search: the compiled statement
for empty criteria carries no WHERE clause. -/
theorem compile_where_structure_witness :
    (([] : List PStr) = [] ∧ ([] : List PStr) = [] ∧ ([] : List PStr) = [])
    ∧ (_compile_sql_search_command_record (pystr "/")
        { limit := 7, pattern := [], cwd := [], cwd_glob := [],
          unique := false }).sql
      = pystr "SELECT " ++ strJoin (pystr ", ") (specColumns false)
        ++ [' '] ++ sqlJoins ++ specGroup false
        ++ [' '] ++ pystr "ORDER BY start_time " ++ pystr "LIMIT ?" :=
  ⟨⟨rfl, rfl, rfl⟩,
    (compile_where_structure (pystr "/")
      { limit := 7, pattern := [], cwd := [], cwd_glob := [],
        unique := false }).2 rfl rfl rfl⟩

/-- C9 counterexample: dispatching an export with the unsupported format
`json` to the file `out.txt` opens (creates or truncates) the output sink
first and only then fails the format dispatch — so the rejection does not
happen "before any I/O occurs / before the output sink is opened": the
event trace is non-empty and begins with the sink being opened. -/
theorem export_dispatch_counterexample :
    (export_run (pystr "json") (pystr "out.txt")).fst
      = [ExportEv.openedSink (pystr "out.txt"), ExportEv.closedSink]
    ∧ (export_run (pystr "json") (pystr "out.txt")).fst ≠ []
    ∧ (export_run (pystr "json") (pystr "out.txt")).snd
      = Except.error
          (pystr "Unsupported format: json. Supported formats: bash") := by
  decide

/-- C9 (amended): every export request naming a format outside the
supported set is rejected at dispatch with the descriptive ValueError
message, the exporter never runs and nothing is written to the sink — but
when the output names a file, the sink has already been opened
(created/truncated) before the check and is closed again as the failure
propagates; only for `-` (stdout) does no opening happen at all. -/
theorem export_unsupported_amended (format output : PStr)
    (h : format ∉ SUPPORTED_FORMATS) :
    (export_run format output).snd
      = Except.error (pystr "Unsupported format: " ++ format
          ++ pystr ". Supported formats: " ++ pystr "bash")
    ∧ (∀ ev ∈ (export_run format output).fst,
        ev = ExportEv.openedSink output ∨ ev = ExportEv.closedSink)
    ∧ (output ≠ pystr "-" →
        (export_run format output).fst
          = [ExportEv.openedSink output, ExportEv.closedSink])
    ∧ (output = pystr "-" → (export_run format output).fst = []) := by
  have hf : format ≠ pystr "bash" := by
    intro he
    exact h (by rw [he]; exact List.mem_singleton_self _)
  unfold export_run get_exporter
  rw [if_neg hf]
  by_cases ho : output = pystr "-"
  · simp [ho, SUPPORTED_FORMATS, strJoin]
  · simp [ho, SUPPORTED_FORMATS, strJoin]

/-- Witness for the amended C9 at a concrete unsupported format. -/
theorem export_unsupported_amended_witness :
    pystr "json" ∉ SUPPORTED_FORMATS
    ∧ (export_run (pystr "json") (pystr "o.txt")).snd
      = Except.error (pystr "Unsupported format: " ++ pystr "json"
          ++ pystr ". Supported formats: " ++ pystr "bash") :=
  ⟨by decide,
    (export_unsupported_amended (pystr "json") (pystr "o.txt")
      (by decide)).1⟩

/-- C3: with the unique flag set, a search returns at most one row per
distinct command text (the distinct command texts of the output are
pairwise different; the LIMIT can only drop whole rows), every returned
row's start column is the maximum start time over that command text's
matching rows, and that maximum is the row's key in the ascending
start-time ordering of the output; concretely, after importing
A(cmd="ls", cwd="/home", start=100) and B(cmd="ls", cwd="/home",
start=200), a unique search for command pattern "ls" returns exactly one
row, and its start is 200. -/
theorem unique_search_correct (pcwd : PStr) (st : Store) (limit : Int)
    (pattern cwdGlob cwdEx : List PStr) :
    (((searchEval pcwd st
        { limit := limit, pattern := pattern, cwd := cwdEx,
          cwd_glob := cwdGlob, unique := true }).map
          JoinedRow.command).Nodup
      ∧ (∀ r ∈ searchEval pcwd st
            { limit := limit, pattern := pattern, cwd := cwdEx,
              cwd_glob := cwdGlob, unique := true },
          r.start = maxStart (groupRows
            (matchedRows pcwd st
              { limit := limit, pattern := pattern, cwd := cwdEx,
                cwd_glob := cwdGlob, unique := true }) r.command))
      ∧ (searchEval pcwd st
          { limit := limit, pattern := pattern, cwd := cwdEx,
            cwd_glob := cwdGlob, unique := true }).Pairwise
          (fun x y => startLe x.start y.start = true))
    ∧ searchEval (pystr "/") demoStore
        { limit := 10, pattern := [pystr "ls"], cwd := [], cwd_glob := [],
          unique := true } = [demoRow] := by
  refine ⟨⟨?_, ?_, ?_⟩, by decide⟩
  · exact uniqueOut_nodup
      (matchedRows pcwd st
        { limit := limit, pattern := pattern, cwd := cwdEx,
          cwd_glob := cwdGlob, unique := true }) limit
  · intro r hr
    exact uniqueOut_start
      (matchedRows pcwd st
        { limit := limit, pattern := pattern, cwd := cwdEx,
          cwd_glob := cwdGlob, unique := true }) limit r hr
  · exact uniqueOut_sorted
      (matchedRows pcwd st
        { limit := limit, pattern := pattern, cwd := cwdEx,
          cwd_glob := cwdGlob, unique := true }) limit

/-- Witness for C3: the scenario row is a member of the concrete unique
search output, and the theorem yields that its start, 200, is the maximum
start time among the matching rows for command text `ls`. -/
theorem unique_search_correct_witness :
    demoRow ∈ searchEval (pystr "/") demoStore
      { limit := 10, pattern := [pystr "ls"], cwd := [], cwd_glob := [],
        unique := true }
    ∧ demoRow.start = maxStart (groupRows
        (matchedRows (pystr "/") demoStore
          { limit := 10, pattern := [pystr "ls"], cwd := [], cwd_glob := [],
            unique := true }) demoRow.command) :=
  ⟨by decide,
    (unique_search_correct (pystr "/") demoStore 10
      [pystr "ls"] [] []).1.2.1 demoRow (by decide)⟩

end Rash
